import Mathlib

/-!
Shallow embedding of the gymctl check engine, progress store and docker
environment teardown, translated from the Go sources
(`internal/checks`, `internal/progress`, `internal/environment`,
`internal/cli`).  External effects (process execution, filesystem, HTTP,
and standard-library collaborators such as regexp matching, float and
quantity parsing) are modelled as oracles collected in a `World` record;
every repository function is a pure function of the world.
-/

namespace Gymctl

/-- Values decoded from YAML into Go `interface\x7b\x7d` fields (the `value`
field of a check).  Only the shapes the exercise schema produces are carried. -/
inductive GoVal
  | str (s : String)
  | int (n : Int)
  | bool (b : Bool)
  deriving DecidableEq, Repr

/-- Go `fmt.Sprintf("%v", v)` on an `interface\x7b\x7d` value; a nil interface
renders as `<nil>`. -/
def goSprintfV : Option GoVal → String
  | none => "<nil>"
  | some (.str s) => s
  | some (.int n) => toString n
  | some (.bool b) => cond b "true" "false"

/-- Outcome of one external process invocation (`cmd.CombinedOutput` in
`internal/runner/runner.go`): clean exit, non-zero exit carrying an exit
code (Go `*exec.ExitError`), or a failure with no exit code (start error,
cancellation). -/
inductive ExecResult
  | ok (output : String)
  | exitErr (code : Int) (output : String)
  | otherErr (msg : String) (output : String)
  deriving DecidableEq, Repr

/-- The error value returned by `runner.Run`/`runner.RunInDir`: its rendered
`Error()` text, and the exit code recoverable through
`errors.As(err, *exec.ExitError)` when the wrapped cause is an exit error. -/
structure RunError where
  msg : String
  exitCode : Option Int
  deriving DecidableEq, Repr

/-- Result of an HTTP round trip as observed by `runHTTPCheck`: transport
failure, or a response with a status code and a body-read outcome. -/
inductive HttpResult
  | failed (msg : String)
  | resp (status : Int) (body : Except String String)

/-- Oracles for every external effect and standard-library collaborator the
embedded code consults.  `exec dir name args` is one process invocation
(`dir = none` for `runner.Run`, `some d` for `runner.RunInDir`); `stat`
returns `some isDir` when `os.Stat` succeeds and `none` when it errors;
`regexMatch pat s` models `regexp.MatchString`; `parseFloat` models
`strconv.ParseFloat` (exact values as rationals); `renderFloat` models
`fmt.Sprintf("%v", f)`; `parseQuantity` models
`resource.ParseQuantity`, returning the magnitude and its canonical
`String()` rendering; `parseDuration` models `time.ParseDuration` in
nanoseconds; `newRequestErr method url` is the error (if any) of
`http.NewRequestWithContext`; `httpDo method url headers timeoutNs` is the
client round trip. -/
structure World where
  exec : Option String → String → List String → ExecResult
  stat : String → Option Bool
  readFile : String → Except String String
  regexMatch : String → String → Except String Bool
  parseFloat : String → Option ℚ
  renderFloat : ℚ → String
  parseQuantity : String → Except String (ℚ × String)
  parseDuration : String → Option Int
  newRequestErr : String → String → Option String
  httpDo : String → String → List (String × String) → Int → HttpResult

/-- Go `strings.TrimSpace`: drop leading and trailing whitespace. -/
def goTrim (s : String) : String :=
  ⟨(((s.data.dropWhile Char.isWhitespace).reverse).dropWhile Char.isWhitespace).reverse⟩

/-- Go `strings.HasPrefix(s, pre)`. -/
def goStartsWith (s pre : String) : Bool :=
  pre.data.isPrefixOf s.data

/-- Go `strings.HasSuffix(s, suf)`. -/
def goEndsWith (s suf : String) : Bool :=
  suf.data.isSuffixOf s.data

/-- Go `strings.ToUpper` (ASCII letters, which is all the scanned
dockerfile keywords need). -/
def goToUpper (s : String) : String :=
  ⟨s.data.map Char.toUpper⟩

/-- Go slicing `s[n:]` on ASCII text. -/
def goDrop (s : String) (n : Nat) : String :=
  ⟨s.data.drop n⟩

/-- Go `strings.TrimSuffix` after a successful suffix test: drop the last
`n` characters. -/
def goDropRight (s : String) (n : Nat) : String :=
  ⟨s.data.take (s.data.length - n)⟩

/-- Go `strings.Split(s, sep)` for a one-character separator. -/
def goSplitChar (c : Char) (s : String) : List String :=
  (s.data.foldr
    (fun ch acc =>
      match acc with
      | [] => [[ch]]
      | x :: xs => if ch = c then [] :: x :: xs else (ch :: x) :: xs)
    [[]]).map (fun l => ⟨l⟩)

/-- Go `strings.Join(parts, sep)`. -/
def goJoin (sep : String) : List String → String
  | [] => ""
  | [x] => x
  | x :: xs => x ++ sep ++ goJoin sep xs

/-- Go `strconv.Atoi`-style digit-run parse used to model `strconv.ParseInt`
on non-negative decimals. -/
def goToNat (s : String) : Option Nat :=
  if s.data ≠ [] ∧ s.data.all Char.isDigit then
    some (s.data.foldl (fun n c => n * 10 + (c.toNat - 48)) 0)
  else none

/-- Model of `strconv.ParseInt(s, 10, 64)`: optional sign, decimal digits. -/
def goToInt (s : String) : Option Int :=
  match s.data with
  | '-' :: rest => (goToNat ⟨rest⟩).map (fun n => -(n : Int))
  | '+' :: rest => (goToNat ⟨rest⟩).map (fun n => (n : Int))
  | _ => (goToNat s).map (fun n => (n : Int))

/-- Go `strings.Join(args, " ")`. -/
def goJoinSpace (args : List String) : String :=
  goJoin " " args

/-- Error text built by `runner.Run`/`runner.RunInDir`:
`"<name> <args> failed: <cause>\n<trimmed output>"`. -/
def runWrapMsg (name : String) (args : List String) (cause trimmed : String) : String :=
  name ++ " " ++ goJoinSpace args ++ " failed: " ++ cause ++ "\n" ++ trimmed

/-- Shared body of `runner.Run` and `runner.RunInDir`: trim the combined
output; on failure wrap the cause together with the trimmed output, keeping
the exit code reachable for `errors.As`. -/
def runnerRunWith (res : ExecResult) (name : String) (args : List String) :
    String × Option RunError :=
  match res with
  | .ok out => (goTrim out, none)
  | .exitErr c out =>
      (goTrim out,
        some ⟨runWrapMsg name args ("exit status " ++ toString c) (goTrim out), some c⟩)
  | .otherErr m out =>
      (goTrim out, some ⟨runWrapMsg name args m (goTrim out), none⟩)

/-- `runner.Run(ctx, name, args...)`. -/
def runnerRun (w : World) (name : String) (args : List String) : String × Option RunError :=
  runnerRunWith (w.exec none name args) name args

/-- `runner.RunInDir(ctx, dir, name, args...)`. -/
def runnerRunInDir (w : World) (dir name : String) (args : List String) :
    String × Option RunError :=
  runnerRunWith (w.exec (some dir) name args) name args

/-- Substring search over character lists: the needle occurs at some
position of the haystack. -/
def listContainsSub (sub : List Char) : List Char → Bool
  | [] => sub.isEmpty
  | c :: rest => sub.isPrefixOf (c :: rest) || listContainsSub sub rest

/-- Go `strings.Contains(s, sub)`. -/
def goContains (s sub : String) : Bool :=
  listContainsSub sub.data s.data

/-- Go `filepath.IsAbs` on linux. -/
def goIsAbs (p : String) : Bool :=
  goStartsWith p "/"

/-- Go `filepath.Join(a, b)` (path cleaning is irrelevant to the verified
properties; the joined string only serves as the key handed to the world). -/
def goJoinPath (a b : String) : String :=
  a ++ "/" ++ b

/-- Relative-path resolution used throughout the sources: absolute paths are
kept, relative ones are joined onto the base directory. -/
def resolvePath (baseDir value : String) : String :=
  if goIsAbs value then value else goJoinPath baseDir value

/-- Go `filepath.Dir`: everything before the final slash. -/
def goDir (p : String) : String :=
  match goSplitChar '/' p with
  | [] => "."
  | [_] => "."
  | parts => goJoin "/" parts.dropLast

/-- One hint of an exercise (`scenario.Hint`). -/
structure Hint where
  cost : Int := 0
  file : String := ""
  content : String := ""
  deriving DecidableEq, Repr

/-- Output assertions of process-invoking checks (`scenario.ExpectOutput`). -/
structure ExpectOutput where
  contains : String := ""
  notContains : String := ""
  regex : String := ""
  deriving DecidableEq, Repr

/-- Body assertions of HTTP checks (`scenario.ExpectBody`). -/
structure ExpectBody where
  contains : String := ""
  notContains : String := ""
  regex : String := ""
  deriving DecidableEq, Repr

/-- One declared check (`scenario.Check`).  Field renamings forced by Lean:
`ty` is the Go `Type` tag, `ns` is `Namespace`, `exists_` is `Exists`. -/
structure Check where
  name : String := ""
  ty : String := ""
  resource : String := ""
  ns : String := ""
  jsonpath : String := ""
  operator : String := ""
  value : Option GoVal := none
  valueType : String := ""
  condition : String := ""
  status : String := ""
  timeout : String := ""
  script : String := ""
  selector : String := ""
  container : String := ""
  command : List String := []
  expectExitCode : Option Int := none
  expectOutput : Option ExpectOutput := none
  image : String := ""
  property : String := ""
  url : String := ""
  method : String := ""
  expectStatus : Option Int := none
  expectBody : Option ExpectBody := none
  headers : List (String × String) := []
  path : String := ""
  check : String := ""
  recursive : Option Bool := none
  exists_ : Option Bool := none
  deriving DecidableEq, Repr

/-- A single container of a docker environment (`scenario.DockerContainer`). -/
structure DockerContainer where
  name : String := ""
  build : String := ""
  image : String := ""
  ports : List String := []
  deriving DecidableEq, Repr

/-- A staged file or directory (`scenario.CopyFile`). -/
structure CopyFile where
  from_ : String := ""
  to_ : String := ""
  deriving DecidableEq, Repr

/-- Docker environment declaration (`scenario.DockerSpec`). -/
structure DockerSpec where
  composeFile : String := ""
  containers : List DockerContainer := []
  copyFiles : List CopyFile := []
  deriving DecidableEq, Repr

/-- A wait condition of a kubernetes environment (`scenario.WaitCondition`). -/
structure WaitCondition where
  resource : String := ""
  condition : String := ""
  timeout : String := ""
  deriving DecidableEq, Repr

/-- Kubernetes environment declaration (`scenario.KubernetesSpec`); `ns`
is the Go `Namespace` field. -/
structure KubernetesSpec where
  createCluster : Option Bool := none
  kindConfig : String := ""
  ns : String := ""
  setupManifests : List String := []
  waitFor : List WaitCondition := []
  deriving DecidableEq, Repr

/-- Environment declaration (`scenario.EnvironmentSpec`); `ty` is the Go
`Type` tag. -/
structure EnvironmentSpec where
  ty : String := ""
  kubernetes : Option KubernetesSpec := none
  docker : Option DockerSpec := none
  deriving DecidableEq, Repr

/-- Exercise metadata (`scenario.ExerciseMeta`); only the fields the verified
operations read are carried. -/
structure ExerciseMeta where
  name : String := ""
  title : String := ""
  deriving DecidableEq, Repr

/-- Exercise spec (`scenario.ExerciseSpec`); only the fields the verified
operations read are carried. -/
structure ExerciseSpec where
  points : Int := 0
  environment : EnvironmentSpec := {}
  checks : List Check := []
  hints : List Hint := []
  deriving DecidableEq, Repr

/-- An exercise definition (`scenario.Exercise`). -/
structure Exercise where
  metadata : ExerciseMeta := {}
  spec : ExerciseSpec := {}
  deriving DecidableEq, Repr

/-- One check verdict (`checks.Result`). -/
structure Result where
  name : String := ""
  passed : Bool := false
  message : String := ""
  deriving DecidableEq, Repr

/-- `checks.compareOrdered`: ordered comparison of two observed strings under
a declared value type.  `number` parses both sides as floats, `quantity`
parses both with unit-suffix semantics and compares magnitudes; any other
value type is itself a failure. -/
def compareOrdered (w : World) (actual expected operator valueType : String) :
    Bool × String :=
  if valueType = "number" then
    match w.parseFloat actual with
    | none => (false, "invalid number: " ++ actual)
    | some actualNum =>
      match w.parseFloat expected with
      | none => (false, "invalid expected number: " ++ expected)
      | some expectedNum =>
        if operator = "greaterThan" then
          if actualNum > expectedNum then (true, "")
          else (false, "expected " ++ w.renderFloat actualNum ++ " > " ++
            w.renderFloat expectedNum)
        else
          if actualNum < expectedNum then (true, "")
          else (false, "expected " ++ w.renderFloat actualNum ++ " < " ++
            w.renderFloat expectedNum)
  else if valueType = "quantity" then
    match w.parseQuantity actual with
    | .error _ => (false, "invalid quantity: " ++ actual)
    | .ok actualQty =>
      match w.parseQuantity expected with
      | .error _ => (false, "invalid expected quantity: " ++ expected)
      | .ok expectedQty =>
        if operator = "greaterThan" then
          if actualQty.1 > expectedQty.1 then (true, "")
          else (false, "expected " ++ actualQty.2 ++ " > " ++ expectedQty.2)
        else
          if actualQty.1 < expectedQty.1 then (true, "")
          else (false, "expected " ++ actualQty.2 ++ " < " ++ expectedQty.2)
  else
    (false, "valueType required for ordered comparison")

/-- `checks.compareValue`: the value-comparison algebra judging an observed
string against an expected value under an operator. -/
def compareValue (w : World) (actual : String) (operator : String)
    (expected : Option GoVal) (valueType : String) : Bool × String :=
  let operator := if operator = "" then "equals" else operator
  if operator = "exists" then
    if actual ≠ "" then (true, "") else (false, "value not found")
  else
    let stringExpected := if expected = none then "" else goSprintfV expected
    if operator = "equals" then
      if actual = stringExpected then (true, "")
      else (false, "expected " ++ stringExpected ++ ", got " ++ actual)
    else if operator = "notEquals" then
      if actual ≠ stringExpected then (true, "")
      else (false, "expected not " ++ stringExpected ++ ", got " ++ actual)
    else if operator = "contains" then
      if goContains actual stringExpected then (true, "")
      else (false, "expected contains " ++ stringExpected ++ ", got " ++ actual)
    else if operator = "regex" then
      match w.regexMatch stringExpected actual with
      | .error e => (false, "invalid regex: " ++ e)
      | .ok matched =>
        if matched then (true, "")
        else (false, "expected " ++ actual ++ " to match " ++ stringExpected)
    else if operator = "greaterThan" ∨ operator = "lessThan" then
      compareOrdered w actual stringExpected operator valueType
    else
      (false, "unsupported operator: " ++ operator)

/-- `checks.compareInt`: integer comparison used by docker image checks. -/
def compareInt (actual expected : Int) (operator : String) : Bool × String :=
  let operator := if operator = "" then "equals" else operator
  if operator = "equals" then
    if actual = expected then (true, "")
    else (false, "expected " ++ toString expected ++ ", got " ++ toString actual)
  else if operator = "notEquals" then
    if actual ≠ expected then (true, "")
    else (false, "expected not " ++ toString expected ++ ", got " ++ toString actual)
  else if operator = "greaterThan" then
    if actual > expected then (true, "")
    else (false, "expected " ++ toString actual ++ " > " ++ toString expected)
  else if operator = "lessThan" then
    if actual < expected then (true, "")
    else (false, "expected " ++ toString actual ++ " < " ++ toString expected)
  else
    (false, "unsupported operator: " ++ operator)

/-- Truncation toward zero of a rational, as Go `int64(f)` on a float. -/
def ratTrunc (q : ℚ) : Int :=
  if 0 ≤ q then ⌊q⌋ else ⌈q⌉

/-- `checks.parseSize`: parse a human-readable size (`100MB`, `1.5GB`, plain
bytes) into a byte count using binary multipliers. -/
def parseSize (w : World) (value : String) : Except String Int :=
  let value := goTrim (goToUpper value)
  if value = "" then .error "size is empty"
  else
    let (multiplier, value) :=
      if goEndsWith value "GB" then ((1024 * 1024 * 1024 : Int), goDropRight value 2)
      else if goEndsWith value "MB" then ((1024 * 1024 : Int), goDropRight value 2)
      else if goEndsWith value "KB" then ((1024 : Int), goDropRight value 2)
      else if goEndsWith value "B" then ((1 : Int), goDropRight value 1)
      else ((1 : Int), value)
    match w.parseFloat (goTrim value) with
    | none => .error ("invalid size: " ++ value)
    | some numeric => .ok (ratTrunc (numeric * (multiplier : ℚ)))

/-- `checks.checkExpectOutput`: validate captured command output against the
declared assertions; all declared assertions must hold. -/
def checkExpectOutput (w : World) (output : String) (expect : ExpectOutput)
    (result : Result) : Result :=
  if expect.contains ≠ "" ∧ ¬goContains output expect.contains then
    { result with message := "output does not contain: " ++ expect.contains }
  else if expect.notContains ≠ "" ∧ goContains output expect.notContains then
    { result with message := "output contains: " ++ expect.notContains }
  else if expect.regex ≠ "" then
    match w.regexMatch expect.regex output with
    | .error e => { result with message := "invalid regex: " ++ e }
    | .ok matched =>
      if ¬matched then
        { result with message := "output does not match regex: " ++ expect.regex }
      else { result with passed := true }
  else
    { result with passed := true }

/-- Shared exit-code gate and output-assertion tail of the three
process-invoking checks (`runScriptCheck`, `runKubernetesExecCheck`,
`runDockerExecCheck`); each Go function repeats this block verbatim. -/
def execGateAndOutput (w : World) (check : Check) (output : String)
    (err : Option RunError) (result : Result) : Result :=
  let afterGate : Result :=
    match check.expectOutput with
    | some expect => checkExpectOutput w output expect result
    | none => { result with passed := true }
  match check.expectExitCode with
  | some expected =>
    match err with
    | none =>
      if (0 : Int) ≠ expected then
        { result with message := "expected exit code " ++ toString expected ++
            ", got " ++ toString (0 : Int) }
      else afterGate
    | some e =>
      match e.exitCode with
      | some code =>
        if code ≠ expected then
          { result with message := "expected exit code " ++ toString expected ++
              ", got " ++ toString code }
        else afterGate
      | none => { result with message := e.msg }
  | none =>
    match err with
    | some e => { result with message := e.msg }
    | none => afterGate

/-- `checks.runScriptCheck`: run a shell script in the working directory,
gate on the exit code, then check output assertions. -/
def runScriptCheck (w : World) (check : Check) (workDir : String) : Result :=
  let result : Result := { name := check.name }
  if check.script = "" then { result with message := "missing script" }
  else
    let (output, err) := runnerRunInDir w workDir "bash" ["-c", check.script]
    execGateAndOutput w check output err result

/-- `checks.runKubernetesExecCheck`: run a command in a pod via kubectl
exec, gate on the exit code, then check output assertions. -/
def runKubernetesExecCheck (w : World) (ns : String) (check : Check) : Result :=
  let result : Result := { name := check.name }
  if check.resource = "" ∨ check.command = [] then
    { result with message := "missing resource or command for exec" }
  else
    let args := ["exec", check.resource] ++
      (if ns ≠ "" then ["-n", ns] else []) ++
      (if check.container ≠ "" then ["-c", check.container] else []) ++
      ["--"] ++ check.command
    let (output, err) := runnerRun w "kubectl" args
    execGateAndOutput w check output err result

/-- `checks.runDockerExecCheck`: run a command in a docker container, gate on
the exit code, then check output assertions. -/
def runDockerExecCheck (w : World) (check : Check) : Result :=
  let result : Result := { name := check.name }
  if check.container = "" ∨ check.command = [] then
    { result with message := "missing container or command for exec" }
  else
    let args := ["exec", check.container] ++ check.command
    let (output, err) := runnerRun w "docker" args
    execGateAndOutput w check output err result

/-- `checks.runJSONPathCheck`: query a resource field via kubectl jsonpath
and judge it with the comparison algebra. -/
def runJSONPathCheck (w : World) (ns : String) (check : Check) : Result :=
  let result : Result := { name := check.name }
  if check.resource = "" ∨ check.jsonpath = "" then
    { result with message := "missing resource or jsonpath" }
  else
    let args := ["get", check.resource, "-o", "jsonpath=" ++ check.jsonpath] ++
      (if ns ≠ "" then ["-n", ns] else [])
    match runnerRun w "kubectl" args with
    | (_, some e) => { result with message := e.msg }
    | (output, none) =>
      let (passed, msg) :=
        compareValue w (goTrim output) check.operator check.value check.valueType
      { result with passed := passed, message := msg }

/-- `checks.runConditionCheck`: read a resource condition status via kubectl
and compare it to the expected status (default `True`). -/
def runConditionCheck (w : World) (ns : String) (check : Check) : Result :=
  let result : Result := { name := check.name }
  if check.resource = "" ∨ check.condition = "" then
    { result with message := "missing resource or condition" }
  else
    let status := if check.status = "" then "True" else check.status
    let jsonpath := "\x7b.status.conditions[?(@.type==\"" ++ check.condition ++
      "\")].status\x7d"
    let args := ["get", check.resource, "-o", "jsonpath=" ++ jsonpath] ++
      (if ns ≠ "" then ["-n", ns] else [])
    match runnerRun w "kubectl" args with
    | (_, some e) => { result with message := e.msg }
    | (output, none) =>
      let output := goTrim output
      if output = status then { result with passed := true }
      else { result with message := "expected " ++ status ++ ", got " ++ output }

/-- `checks.runResourceExistsCheck`: probe a resource via kubectl get and
compare existence to the declared expectation (default `true`). -/
def runResourceExistsCheck (w : World) (ns : String) (check : Check) : Result :=
  let result : Result := { name := check.name }
  if check.resource = "" then { result with message := "missing resource" }
  else
    let args := ["get", check.resource] ++ (if ns ≠ "" then ["-n", ns] else [])
    let exists_ := ((runnerRun w "kubectl" args).2).isNone
    let expected := match check.exists_ with
      | some e => e
      | none => true
    if exists_ = expected then { result with passed := true }
    else
      { result with message := "expected exists=" ++ (cond expected "true" "false") ++
          ", got " ++ (cond exists_ "true" "false") }

/-- `checks.runPodLogsCheck`: fetch pod logs by selector or resource and
judge them with the comparison algebra. -/
def runPodLogsCheck (w : World) (ns : String) (check : Check) : Result :=
  let result : Result := { name := check.name }
  if check.selector = "" ∧ check.resource = "" then
    { result with message := "missing selector or resource for pod logs" }
  else
    let args := ["logs"] ++
      (if check.selector ≠ "" then ["-l", check.selector] else [check.resource]) ++
      (if ns ≠ "" then ["-n", ns] else []) ++
      (if check.container ≠ "" then ["-c", check.container] else []) ++
      (if check.timeout ≠ "" then ["--since", check.timeout] else [])
    match runnerRun w "kubectl" args with
    | (_, some e) => { result with message := e.msg }
    | (output, none) =>
      let (passed, msg) :=
        compareValue w output check.operator check.value check.valueType
      { result with passed := passed, message := msg }

/-- `checks.runDockerImageCheck`: inspect one property of a docker image
(size, layer count, base image, labels) and judge it. -/
def runDockerImageCheck (w : World) (check : Check) : Result :=
  let result : Result := { name := check.name }
  if check.image = "" ∨ check.property = "" then
    { result with message := "missing image or property" }
  else if check.property = "size" then
    match runnerRun w "docker"
        ["image", "inspect", check.image, "--format", "\x7b\x7b.Size\x7d\x7d"] with
    | (_, some e) => { result with message := e.msg }
    | (output, none) =>
      match goToInt (goTrim output) with
      | none => { result with message := "invalid image size: " ++ output }
      | some actualSize =>
        match parseSize w (goSprintfV check.value) with
        | .error e => { result with message := e }
        | .ok expectedSize =>
          let (passed, msg) := compareInt actualSize expectedSize check.operator
          { result with passed := passed, message := msg }
  else if check.property = "layers" then
    match runnerRun w "docker"
        ["image", "inspect", check.image, "--format",
          "\x7b\x7blen .RootFS.Layers\x7d\x7d"] with
    | (_, some e) => { result with message := e.msg }
    | (output, none) =>
      match goToInt (goTrim output) with
      | none => { result with message := "invalid layer count: " ++ output }
      | some actualLayers =>
        match goToInt (goSprintfV check.value) with
        | none =>
          { result with message := "invalid expected layers: " ++ goSprintfV check.value }
        | some expectedLayers =>
          let (passed, msg) := compareInt actualLayers expectedLayers check.operator
          { result with passed := passed, message := msg }
  else if check.property = "baseImage" then
    match runnerRun w "docker"
        ["image", "inspect", check.image, "--format",
          "\x7b\x7b.ContainerConfig.Image\x7d\x7d"] with
    | (_, some e) => { result with message := e.msg }
    | (output, none) =>
      let (passed, msg) :=
        compareValue w (goTrim output) check.operator check.value "string"
      { result with passed := passed, message := msg }
  else if check.property = "labels" then
    match runnerRun w "docker"
        ["image", "inspect", check.image, "--format",
          "\x7b\x7b.Config.Labels\x7d\x7d"] with
    | (_, some e) => { result with message := e.msg }
    | (output, none) =>
      let (passed, msg) :=
        compareValue w (goTrim output) check.operator check.value "string"
      { result with passed := passed, message := msg }
  else
    { result with message := "unsupported docker image property: " ++ check.property }

/-- `checks.runDockerContainerCheck`: inspect one property of a docker
container (state, health, exit code, ports) and judge it. -/
def runDockerContainerCheck (w : World) (check : Check) : Result :=
  let result : Result := { name := check.name }
  if check.container = "" ∨ check.property = "" then
    { result with message := "missing container or property" }
  else if check.property = "state" then
    match runnerRun w "docker"
        ["inspect", check.container, "--format", "\x7b\x7b.State.Status\x7d\x7d"] with
    | (_, some e) => { result with message := e.msg }
    | (output, none) =>
      let (passed, msg) :=
        compareValue w (goTrim output) check.operator check.value "string"
      { result with passed := passed, message := msg }
  else if check.property = "health" then
    match runnerRun w "docker"
        ["inspect", check.container, "--format",
          "\x7b\x7b.State.Health.Status\x7d\x7d"] with
    | (_, some e) => { result with message := e.msg }
    | (output, none) =>
      let value := goTrim output
      if check.operator = "exists" then
        if value ≠ "" then { result with passed := true }
        else { result with message := "health status not found" }
      else
        let (passed, msg) := compareValue w value check.operator check.value "string"
        { result with passed := passed, message := msg }
  else if check.property = "exitCode" then
    match runnerRun w "docker"
        ["inspect", check.container, "--format", "\x7b\x7b.State.ExitCode\x7d\x7d"] with
    | (_, some e) => { result with message := e.msg }
    | (output, none) =>
      let (passed, msg) :=
        compareValue w (goTrim output) check.operator check.value "number"
      { result with passed := passed, message := msg }
  else if check.property = "ports" then
    match runnerRun w "docker" ["port", check.container] with
    | (_, some e) => { result with message := e.msg }
    | (output, none) =>
      let (passed, msg) :=
        compareValue w (goTrim output) check.operator check.value "string"
      { result with passed := passed, message := msg }
  else
    { result with
        message := "unsupported docker container property: " ++ check.property }

/-- `checks.runDockerLogsCheck`: fetch container logs and judge them. -/
def runDockerLogsCheck (w : World) (check : Check) : Result :=
  let result : Result := { name := check.name }
  if check.container = "" then { result with message := "missing container" }
  else
    let args := ["logs"] ++
      (if check.timeout ≠ "" then ["--since", check.timeout] else []) ++
      [check.container]
    match runnerRun w "docker" args with
    | (_, some e) => { result with message := e.msg }
    | (output, none) =>
      let (passed, msg) :=
        compareValue w output check.operator check.value "string"
      { result with passed := passed, message := msg }

/-- Accumulator of the dockerfile line scan: FROM count, USER presence,
COPY --from presence, and the first FROM operand. -/
structure DockerfileScan where
  fromCount : Nat := 0
  userFound : Bool := false
  copyFromFound : Bool := false
  firstFrom : String := ""
  deriving DecidableEq, Repr

/-- One step of the dockerfile line scan in `checks.runDockerfileCheck`. -/
def dockerfileScanLine (acc : DockerfileScan) (line : String) : DockerfileScan :=
  let trimmed := goTrim line
  if trimmed = "" ∨ goStartsWith trimmed "#" then acc
  else
    let upper := goToUpper trimmed
    let acc :=
      if goStartsWith upper "FROM " then
        { acc with
            fromCount := acc.fromCount + 1,
            firstFrom :=
              if acc.firstFrom = "" then goTrim (goDrop trimmed 5) else acc.firstFrom }
      else acc
    let acc := if goStartsWith upper "USER " then { acc with userFound := true } else acc
    if goContains upper "COPY --FROM=" then { acc with copyFromFound := true } else acc

/-- `checks.runDockerfileCheck`: read a dockerfile and judge a structural
property (multi-stage, base image, copy-from, user instruction). -/
def runDockerfileCheck (w : World) (check : Check) (workDir : String) : Result :=
  let result : Result := { name := check.name }
  if check.path = "" then { result with message := "missing dockerfile path" }
  else
    let path := if goIsAbs check.path then check.path else goJoinPath workDir check.path
    match w.readFile path with
    | .error e => { result with message := "read dockerfile: " ++ e }
    | .ok content =>
      let scan := (goSplitChar (Char.ofNat 10) content).foldl dockerfileScanLine {}
      if check.check = "multiStage" then
        let actual := decide (scan.fromCount > 1)
        let (passed, msg) := compareValue w (cond actual "true" "false")
          check.operator check.value "string"
        { result with passed := passed, message := msg }
      else if check.check = "baseImage" then
        let (passed, msg) := compareValue w scan.firstFrom
          check.operator check.value "string"
        { result with passed := passed, message := msg }
      else if check.check = "copyFrom" then
        let (passed, msg) := compareValue w (cond scan.copyFromFound "true" "false")
          check.operator check.value "string"
        { result with passed := passed, message := msg }
      else if check.check = "userInstruction" then
        if check.operator = "exists" then
          if scan.userFound then { result with passed := true }
          else { result with message := "USER instruction not found" }
        else
          let (passed, msg) := compareValue w (cond scan.userFound "true" "false")
            check.operator check.value "string"
          { result with passed := passed, message := msg }
      else
        { result with message := "unsupported dockerfile check: " ++ check.check }

/-- `checks.runHTTPCheck`: issue an HTTP request and validate status code and
body assertions. -/
def runHTTPCheck (w : World) (check : Check) : Result :=
  let result : Result := { name := check.name }
  if check.url = "" then { result with message := "missing URL" }
  else
    let method := if check.method = "" then "GET" else check.method
    let timeout : Int :=
      if check.timeout ≠ "" then
        match w.parseDuration check.timeout with
        | some d => d
        | none => 10000000000
      else 10000000000
    match w.newRequestErr method check.url with
    | some e => { result with message := "create request: " ++ e }
    | none =>
      match w.httpDo method check.url check.headers timeout with
      | .failed e => { result with message := "request failed: " ++ e }
      | .resp status body =>
        let bodyPart : Result :=
          match check.expectBody with
          | none => { result with passed := true }
          | some expect =>
            match body with
            | .error e => { result with message := "read body: " ++ e }
            | .ok bodyStr =>
              if expect.contains ≠ "" ∧ ¬goContains bodyStr expect.contains then
                { result with message := "body does not contain: " ++ expect.contains }
              else if expect.notContains ≠ "" ∧ goContains bodyStr expect.notContains then
                { result with message := "body contains: " ++ expect.notContains }
              else if expect.regex ≠ "" then
                match w.regexMatch expect.regex bodyStr with
                | .error e => { result with message := "invalid regex: " ++ e }
                | .ok matched =>
                  if ¬matched then
                    { result with
                        message := "body does not match regex: " ++ expect.regex }
                  else { result with passed := true }
              else { result with passed := true }
        match check.expectStatus with
        | some s =>
          if status ≠ s then
            { result with message := "expected status " ++ toString s ++
                ", got " ++ toString status }
          else bodyPart
        | none => bodyPart

/-- `checks.runFileCheck`: resolve the path against the working directory,
check existence assertions in both directions, and judge regular-file content
with the comparison algebra. -/
def runFileCheck (w : World) (check : Check) (workDir : String) : Result :=
  let result : Result := { name := check.name }
  if check.path = "" then { result with message := "missing file path" }
  else
    let path := if goIsAbs check.path then check.path else goJoinPath workDir check.path
    let statRes := w.stat path
    let exists_ := statRes.isSome
    let afterExistence : Result :=
      if ¬exists_ then { result with message := "file not found: " ++ check.path }
      else if statRes = some true then
        if check.value = none ∧ check.operator = "" then { result with passed := true }
        else { result with message := "cannot check content of directory" }
      else if check.value ≠ none ∨ check.operator ≠ "" then
        match w.readFile path with
        | .error e => { result with message := "read file: " ++ e }
        | .ok content =>
          let (passed, msg) :=
            compareValue w content check.operator check.value "string"
          { result with passed := passed, message := msg }
      else { result with passed := true }
    match check.exists_ with
    | some expected =>
      if exists_ ≠ expected then
        if expected then
          { result with message := "file does not exist: " ++ check.path }
        else
          { result with message := "file exists but should not: " ++ check.path }
      else if expected = false then { result with passed := true }
      else afterExistence
    | none => afterExistence

/-- `checks.runCheck`: dispatch one check to its runner; environment-agnostic
kinds first, then the table of the exercise's environment backend; an
unrecognized kind for the backend is a per-check failure. -/
def runCheck (w : World) (exercise : Exercise) (workDir : String) (check : Check) :
    Result :=
  let rname := if check.name = "" then check.ty else check.name
  if check.ty = "script" then runScriptCheck w check workDir
  else if check.ty = "http" then runHTTPCheck w check
  else if check.ty = "file" then runFileCheck w check workDir
  else if exercise.spec.environment.ty = "kubernetes" then
    match exercise.spec.environment.kubernetes with
    | none => { name := rname, message := "missing kubernetes config" }
    | some k8s =>
      let ns := if k8s.ns = "" then "default" else k8s.ns
      let ns := if check.ns ≠ "" then check.ns else ns
      if check.ty = "jsonpath" then runJSONPathCheck w ns check
      else if check.ty = "condition" then runConditionCheck w ns check
      else if check.ty = "resourceExists" then runResourceExistsCheck w ns check
      else if check.ty = "podLogs" then runPodLogsCheck w ns check
      else if check.ty = "exec" then runKubernetesExecCheck w ns check
      else { name := rname, message := "unsupported check type: " ++ check.ty }
  else if exercise.spec.environment.ty = "docker" then
    if check.ty = "docker-image" then runDockerImageCheck w check
    else if check.ty = "docker-container" then runDockerContainerCheck w check
    else if check.ty = "docker-logs" then runDockerLogsCheck w check
    else if check.ty = "dockerfile" then runDockerfileCheck w check workDir
    else if check.ty = "exec" then runDockerExecCheck w check
    else { name := rname, message := "unsupported check type: " ++ check.ty }
  else { name := rname, message := "unsupported environment for checks" }

/-- `checks.RunExerciseChecks`: evaluate every declared check in declaration
order; the all-passed boolean is the conjunction of the individual verdicts. -/
def RunExerciseChecks (w : World) (exercise : Exercise) (workDir : String) :
    List Result × Bool :=
  let results := exercise.spec.checks.map (runCheck w exercise workDir)
  (results, results.all (fun r => r.passed))

/-- One persisted exercise entry (`progress.ExerciseStatus`).  The counters
`hintsUsed` and `resets` are Go ints carrying the documented invariant that
they are monotone counters starting at zero, so they are embedded as `Nat`. -/
structure ExerciseStatus where
  status : String := ""
  startedAt : String := ""
  completedAt : String := ""
  timeSpent : String := ""
  hintsUsed : Nat := 0
  resets : Nat := 0
  score : Int := 0
  deriving DecidableEq, Repr

/-- The persisted progress document (`progress.File`); the Go
`map[string]ExerciseStatus` is embedded as an association list with unique
keys. -/
structure ProgressFile where
  version : Int := 0
  exercises : List (String × ExerciseStatus) := []
  deriving DecidableEq, Repr

/-- Go map read `m[k]`: the stored entry, or the zero value when absent. -/
def goMapGet (m : List (String × ExerciseStatus)) (k : String) : ExerciseStatus :=
  (m.lookup k).getD {}

/-- Go map write `m[k] = v`: replace the binding when present, append when
absent. -/
def goMapSet : List (String × ExerciseStatus) → String → ExerciseStatus →
    List (String × ExerciseStatus)
  | [], k, v => [(k, v)]
  | (k', v') :: rest, k, v =>
    if k' = k then (k, v) :: rest else (k', v') :: goMapSet rest k v

/-- Outcome of `os.ReadFile` as `progress.Load` distinguishes it: the file is
missing, reading failed for another reason, or the raw bytes were read. -/
inductive ReadOutcome
  | notExist
  | readErr (msg : String)
  | ok (data : String)
  deriving DecidableEq, Repr

/-- `progress.Load`: a missing document loads as the empty document
(version 1, no exercises); any other read failure and any parse failure is an
error; a parsed document gets a nil exercise map replaced by an empty one and
a zero version replaced by 1.  `parse` models `yaml.Unmarshal`. -/
def progressLoad (read : ReadOutcome) (parse : String → Except String ProgressFile) :
    Except String ProgressFile :=
  match read with
  | .notExist => .ok { version := 1, exercises := [] }
  | .readErr m => .error ("read progress: " ++ m)
  | .ok data =>
    match parse data with
    | .error e => .error ("parse progress yaml: " ++ e)
    | .ok file =>
      .ok { file with version := if file.version = 0 then 1 else file.version }

/-- `cli.defaultPoints`: declared points with 100 substituted for zero. -/
def defaultPoints (points : Int) : Int :=
  if points = 0 then 100 else points

/-- Document transform of `cli.markCompleted` (between its `progress.Load`
and `progress.Save`): set the entry completed, stamp `completedAt`, set the
score from the declared points. -/
def markCompletedDoc (file : ProgressFile) (name now : String) (points : Int) :
    ProgressFile :=
  let entry := goMapGet file.exercises name
  let entry := { entry with
    status := "completed"
    completedAt := now
    score := defaultPoints points }
  { file with exercises := goMapSet file.exercises name entry }

/-- Document transform of `cli.markReset`: increment `resets`, set the status
in-progress, re-stamp `startedAt`. -/
def markResetDoc (file : ProgressFile) (name now : String) : ProgressFile :=
  let entry := goMapGet file.exercises name
  let entry := { entry with
    resets := entry.resets + 1
    status := "in_progress"
    startedAt := now }
  { file with exercises := goMapSet file.exercises name entry }

/-- Document transform of `cli.markStopped`: set the status stopped, keeping
`startedAt`. -/
def markStoppedDoc (file : ProgressFile) (name : String) : ProgressFile :=
  let entry := goMapGet file.exercises name
  let entry := { entry with status := "stopped" }
  { file with exercises := goMapSet file.exercises name entry }

/-- Progress effect of `cli.newCheckCmd`: evaluate the checks and mark the
exercise completed exactly when all of them passed (a failed check set leaves
the document untouched).  Returns the new document together with the verdicts
and the all-passed boolean. -/
def checkCmdRun (w : World) (exercise : Exercise) (workDir : String)
    (file : ProgressFile) (now : String) : ProgressFile × List Result × Bool :=
  let (results, allPassed) := RunExerciseChecks w exercise workDir
  (if allPassed then
      markCompletedDoc file exercise.metadata.name now exercise.spec.points
    else file,
   results, allPassed)

/-- `cli.loadHintContent`: inline content wins; otherwise the hint file is
read relative to the exercise directory. -/
def loadHintContent (w : World) (baseDir : String) (hint : Hint) :
    Except String String :=
  if hint.content ≠ "" then .ok hint.content
  else if hint.file = "" then .error "hint has no content or file"
  else
    match w.readFile (if goIsAbs hint.file then hint.file
      else goJoinPath baseDir hint.file) with
    | .error e => .error ("read hint file: " ++ e)
    | .ok data => .ok data

/-- Load the hint contents at indices `[start, stop)`, stopping at the first
failure, as the reveal loop of `cli.newHintCmd` does. -/
def loadHintRange (w : World) (baseDir : String) (hints : List Hint)
    (start stop : Nat) : Except String (List String) :=
  ((hints.drop start).take (stop - start)).foldr
    (fun hint acc =>
      match loadHintContent w baseDir hint with
      | .error e => .error e
      | .ok c =>
        match acc with
        | .error e => .error e
        | .ok cs => .ok (c :: cs))
    (.ok [])

/-- Outcome of one hint command run: every remaining hint was already used
(success, nothing saved), a hint failed to load (error, nothing saved), or
hints up to the new `hintsUsed` value were revealed and saved. -/
inductive HintOutcome
  | noMore (msg : String)
  | loadErr (msg : String)
  | revealed (upto : Nat)
  deriving DecidableEq, Repr

/-- Progress effect of `cli.newHintCmd`: reveal the next hint (or all
remaining ones with reveal-all), advancing `hintsUsed` to the end index;
when `hintsUsed` already covers the declared hints, report that no more
hints are available and succeed without touching the document. -/
def hintCmdRun (w : World) (baseDir : String) (exercise : Exercise)
    (revealAll : Bool) (file : ProgressFile) : ProgressFile × HintOutcome :=
  let hints := exercise.spec.hints
  let status := goMapGet file.exercises exercise.metadata.name
  let startIndex := status.hintsUsed
  if startIndex ≥ hints.length then (file, .noMore "No more hints available.")
  else
    let endIndex := if revealAll then hints.length else startIndex + 1
    match loadHintRange w baseDir hints startIndex endIndex with
    | .error e => (file, .loadErr e)
    | .ok _ =>
      let status := { status with hintsUsed := endIndex }
      ({ file with exercises := goMapSet file.exercises exercise.metadata.name status },
       .revealed endIndex)

/-- `environment.DockerManager.Teardown`: run the compose down operation when
a compose file is declared and return its failure; container removals and the
staging-directory deletion are attempted with their errors discarded.  The
discarded invocations have no observable effect in the embedding. -/
def dockerTeardown (w : World) (_workDir entryDir : String) (spec : DockerSpec) :
    Option String :=
  if spec.composeFile ≠ "" then
    let composePath := resolvePath entryDir spec.composeFile
    let composeDir := goDir composePath
    match (runnerRunInDir w composeDir "docker"
        ["compose", "-p", "jerry-gym", "-f", composePath, "down", "-v"]).2 with
    | some e => some e.msg
    | none => none
  else none

/-- A concrete world for evaluating the embedding on closed inputs: every
process succeeds with empty output, no file exists, regexes never match,
floats parse as decimal naturals. -/
def quietWorld : World where
  exec := fun _ _ _ => .ok ""
  stat := fun _ => none
  readFile := fun _ => .error "no such file"
  regexMatch := fun _ _ => .ok false
  parseFloat := fun s => (goToNat s).map (fun n => (n : ℚ))
  renderFloat := fun _ => ""
  parseQuantity := fun _ => .error "unparsable"
  parseDuration := fun _ => none
  newRequestErr := fun _ _ => none
  httpDo := fun _ _ _ _ => .failed "no network"

/-- A world where every process invocation exits with code 1 and empty
output. -/
def exitOneWorld : World :=
  { quietWorld with exec := fun _ _ _ => .exitErr 1 "" }

/-- A world where every process invocation fails without an exit code. -/
def execFailWorld : World :=
  { quietWorld with exec := fun _ _ _ => .otherErr "docker not found" "" }

/-- A world where every path names an existing regular file. -/
def filePresentWorld : World :=
  { quietWorld with stat := fun _ => some false, readFile := fun _ => .ok "content" }

/-- Reading back a Go map write at the written key yields the written
value. -/
theorem lookup_goMapSet (m : List (String × ExerciseStatus)) (k : String)
    (v : ExerciseStatus) : (goMapSet m k v).lookup k = some v := by
  induction m with
  | nil => simp [goMapSet, List.lookup]
  | cons head rest ih =>
    by_cases h : head.1 = k
    · simp [goMapSet, h, List.lookup]
    · have hne : (k == head.1) = false := by
        simp [beq_iff_eq]
        exact fun hk => h hk.symm
      simp [goMapSet, h, List.lookup, hne, ih]

/-- Reading the written key through `goMapGet` after a write yields the
written value. -/
theorem goMapGet_goMapSet (m : List (String × ExerciseStatus)) (k : String)
    (v : ExerciseStatus) : goMapGet (goMapSet m k v) k = v := by
  simp [goMapGet, lookup_goMapSet]

/-- C3: an ordered comparison with value type `number` parses both sides as
floats; `greaterThan` passes exactly when both parse and the observed value
strictly exceeds the expected one, `lessThan` dually; equal parsed values
satisfy neither relation; a missing or unrecognized value type makes the
comparison itself a failure. -/
theorem compareOrdered_number_C3 (w : World) (a b : String) :
    ((compareOrdered w a b "greaterThan" "number").1 = true ↔
      ∃ x y, w.parseFloat a = some x ∧ w.parseFloat b = some y ∧ x > y)
    ∧ ((compareOrdered w a b "lessThan" "number").1 = true ↔
      ∃ x y, w.parseFloat a = some x ∧ w.parseFloat b = some y ∧ x < y)
    ∧ (∀ x, w.parseFloat a = some x → w.parseFloat b = some x →
      (compareOrdered w a b "greaterThan" "number").1 = false ∧
      (compareOrdered w a b "lessThan" "number").1 = false)
    ∧ (∀ operator valueType, valueType ≠ "number" → valueType ≠ "quantity" →
      compareOrdered w a b operator valueType =
        (false, "valueType required for ordered comparison")) := by
  have hlg : ¬(("lessThan" : String) = "greaterThan") := by decide
  refine ⟨?_, ?_, ?_, ?_⟩
  · cases ha : w.parseFloat a with
    | none => simp [compareOrdered, ha]
    | some x =>
      cases hb : w.parseFloat b with
      | none => simp [compareOrdered, ha, hb]
      | some y =>
        by_cases hxy : x > y
        · simp [compareOrdered, ha, hb, hxy]
        · simp [compareOrdered, ha, hb, hxy]
  · cases ha : w.parseFloat a with
    | none => simp [compareOrdered, ha]
    | some x =>
      cases hb : w.parseFloat b with
      | none => simp [compareOrdered, ha, hb, hlg]
      | some y =>
        by_cases hxy : x < y
        · simp [compareOrdered, ha, hb, hlg, hxy]
        · simp [compareOrdered, ha, hb, hlg, hxy]
  · intro x ha hb
    constructor
    · simp [compareOrdered, ha, hb]
    · simp [compareOrdered, ha, hb, hlg]
  · intro operator valueType h1 h2
    simp [compareOrdered, h1, h2]

/-- C3 witness: at value 5 on both sides neither ordered relation holds, and
an empty value type is rejected. -/
theorem compareOrdered_number_C3_witness :
    (compareOrdered quietWorld "5" "5" "greaterThan" "number").1 = false
    ∧ (compareOrdered quietWorld "5" "5" "lessThan" "number").1 = false
    ∧ compareOrdered quietWorld "5" "5" "greaterThan" "" =
      (false, "valueType required for ordered comparison") := by
  have h := compareOrdered_number_C3 quietWorld "5" "5"
  have hp : quietWorld.parseFloat "5" = some 5 := by decide
  refine ⟨(h.2.2.1 5 hp hp).1, (h.2.2.1 5 hp hp).2, h.2.2.2 "greaterThan" "" ?_ ?_⟩
  · decide
  · decide

/-- The file check of scenario A: `\x7btype:file, path:"app.txt",
exists:true\x7d`. -/
def fileCheckC4 : Check := { ty := "file", path := "app.txt", exists_ := some true }

/-- C4 counterexample: when `app.txt` is absent, the failed check's message
is `file does not exist: app.txt`, not the claimed `file not found:
app.txt` (that message is only produced when no existence assertion was
declared). -/
theorem runFileCheck_C4_counterexample :
    runFileCheck quietWorld fileCheckC4 "wd" =
      { name := "", passed := false, message := "file does not exist: app.txt" }
    ∧ "file does not exist: app.txt" ≠ "file not found: app.txt" := by
  constructor
  · decide
  · decide

/-- C4 (amended): the file check passes when `app.txt` exists as a regular
file in the working directory, and fails with message
`file does not exist: app.txt` when it does not. -/
theorem runFileCheck_C4 (w : World) (workDir : String) :
    (w.stat (goJoinPath workDir "app.txt") = some false →
      runFileCheck w fileCheckC4 workDir =
        { name := "", passed := true, message := "" })
    ∧ (w.stat (goJoinPath workDir "app.txt") = none →
      runFileCheck w fileCheckC4 workDir =
        { name := "", passed := false, message := "file does not exist: app.txt" }) := by
  have habs : goStartsWith "app.txt" "/" = false := by decide
  constructor
  · intro h
    simp [runFileCheck, fileCheckC4, goIsAbs, habs, h]
  · intro h
    simp [runFileCheck, fileCheckC4, goIsAbs, habs, h]

/-- C4 witness: the amended theorem evaluated in a world where the file
exists and in one where it does not. -/
theorem runFileCheck_C4_witness :
    runFileCheck filePresentWorld fileCheckC4 "wd" =
      { name := "", passed := true, message := "" }
    ∧ runFileCheck quietWorld fileCheckC4 "wd" =
      { name := "", passed := false, message := "file does not exist: app.txt" } :=
  ⟨(runFileCheck_C4 filePresentWorld "wd").1 rfl,
   (runFileCheck_C4 quietWorld "wd").2 rfl⟩

/-- C5: loading a missing progress document succeeds with the empty document
(version 1, no exercises); a document that reads but fails to parse is an
error, never an auto-repaired document; and an error occurs exactly on read
failures other than not-exist and on parse failures. -/
theorem progressLoad_C5 (parse : String → Except String ProgressFile) :
    progressLoad .notExist parse = .ok { version := 1, exercises := [] }
    ∧ (∀ d e, parse d = .error e →
      progressLoad (.ok d) parse = .error ("parse progress yaml: " ++ e))
    ∧ (∀ read, (∃ e, progressLoad read parse = .error e) ↔
      ((∃ m, read = .readErr m) ∨ (∃ d e, read = .ok d ∧ parse d = .error e))) := by
  refine ⟨rfl, ?_, ?_⟩
  · intro d e h
    simp [progressLoad, h]
  · intro read
    cases read with
    | notExist => simp [progressLoad]
    | readErr m => simp [progressLoad]
    | ok d =>
      cases hp : parse d with
      | error e => simp [progressLoad, hp]
      | ok f => simp [progressLoad, hp]

/-- C5 witness: the theorem evaluated with a parser that always fails. -/
theorem progressLoad_C5_witness :
    progressLoad .notExist (fun _ => .error "bad") =
      .ok { version := 1, exercises := [] }
    ∧ progressLoad (.ok "x") (fun _ => .error "bad") =
      .error ("parse progress yaml: " ++ "bad") :=
  ⟨(progressLoad_C5 (fun _ => .error "bad")).1,
   (progressLoad_C5 (fun _ => .error "bad")).2.1 "x" "bad" rfl⟩

/-- A container-stack declaration using a compose file. -/
def composeSpecC6 : DockerSpec := { composeFile := "docker-compose.yml" }

/-- C6 counterexample: on a declaration with a compose file, a failing
compose-down invocation (for example the container tool is unavailable, as
on never-set-up state) makes `Teardown` return an error, so teardown is not
never-fatal. -/
theorem dockerTeardown_C6_counterexample :
    dockerTeardown execFailWorld "wd" "entry" composeSpecC6 =
      some ("docker compose -p jerry-gym -f entry/docker-compose.yml down -v " ++
        "failed: docker not found\n")
    ∧ dockerTeardown execFailWorld "wd" "entry" composeSpecC6 ≠ none := by
  constructor
  · decide
  · decide

/-- C6 (amended): teardown swallows container-removal and staging-directory
failures; it returns no error whenever the declaration has no compose file
or the compose-down invocation succeeds — in particular a second teardown
call under those conditions also returns no error — but a failing
compose-down invocation is returned as an error. -/
theorem dockerTeardown_C6 (w₁ w₂ : World) (wd₁ wd₂ entry : String)
    (spec : DockerSpec)
    (h₁ : spec.composeFile = "" ∨ ∃ out,
      w₁.exec (some (goDir (resolvePath entry spec.composeFile))) "docker"
        ["compose", "-p", "jerry-gym", "-f", resolvePath entry spec.composeFile,
          "down", "-v"] = .ok out)
    (h₂ : spec.composeFile = "" ∨ ∃ out,
      w₂.exec (some (goDir (resolvePath entry spec.composeFile))) "docker"
        ["compose", "-p", "jerry-gym", "-f", resolvePath entry spec.composeFile,
          "down", "-v"] = .ok out) :
    dockerTeardown w₁ wd₁ entry spec = none
    ∧ dockerTeardown w₂ wd₂ entry spec = none := by
  have key : ∀ (w : World) (wd : String),
      (spec.composeFile = "" ∨ ∃ out,
        w.exec (some (goDir (resolvePath entry spec.composeFile))) "docker"
          ["compose", "-p", "jerry-gym", "-f", resolvePath entry spec.composeFile,
            "down", "-v"] = .ok out) →
      dockerTeardown w wd entry spec = none := by
    intro w wd h
    rcases h with h | ⟨out, h⟩
    · simp [dockerTeardown, h]
    · by_cases hcf : spec.composeFile = ""
      · simp [dockerTeardown, hcf]
      · simp [dockerTeardown, hcf, runnerRunInDir, runnerRunWith, h]
  exact ⟨key w₁ wd₁ h₁, key w₂ wd₂ h₂⟩

/-- C6 witness: two successive teardown calls on the compose declaration in
a world where compose-down succeeds both return no error. -/
theorem dockerTeardown_C6_witness :
    dockerTeardown quietWorld "wd" "entry" composeSpecC6 = none
    ∧ dockerTeardown quietWorld "wd" "entry" composeSpecC6 = none :=
  dockerTeardown_C6 quietWorld quietWorld "wd" "wd" "entry" composeSpecC6
    (Or.inr ⟨"", rfl⟩) (Or.inr ⟨"", rfl⟩)

/-- C7: the reset transition increments `resets` by exactly one, sets the
status in-progress, re-stamps `startedAt`, and leaves every other field of
the prior entry — `hintsUsed`, `completedAt`, `score`, `timeSpent` —
unchanged. -/
theorem markReset_C7 (file : ProgressFile) (name now : String)
    (e : ExerciseStatus) (h : file.exercises.lookup name = some e) :
    goMapGet (markResetDoc file name now).exercises name =
      { e with resets := e.resets + 1, status := "in_progress", startedAt := now }
    ∧ (goMapGet (markResetDoc file name now).exercises name).resets = e.resets + 1
    ∧ (goMapGet (markResetDoc file name now).exercises name).status = "in_progress"
    ∧ (goMapGet (markResetDoc file name now).exercises name).startedAt = now
    ∧ (goMapGet (markResetDoc file name now).exercises name).hintsUsed = e.hintsUsed
    ∧ (goMapGet (markResetDoc file name now).exercises name).completedAt = e.completedAt
    ∧ (goMapGet (markResetDoc file name now).exercises name).score = e.score
    ∧ (goMapGet (markResetDoc file name now).exercises name).timeSpent = e.timeSpent := by
  have hg : goMapGet file.exercises name = e := by simp [goMapGet, h]
  have hset : goMapGet (markResetDoc file name now).exercises name =
      { e with resets := e.resets + 1, status := "in_progress", startedAt := now } := by
    simp [markResetDoc, hg, goMapGet_goMapSet]
  exact ⟨hset, by simp [hset], by simp [hset], by simp [hset], by simp [hset],
    by simp [hset], by simp [hset], by simp [hset]⟩

/-- C1: evaluation returns exactly one result per declared check in
declaration order; a check whose kind is unrecognized for the active
backend (its backend configuration being present) yields a failed result
with message `unsupported check type: <kind>` rather than aborting
evaluation; and the all-passed boolean is true iff every individual result
passed. -/
theorem runExerciseChecks_C1 (w : World) (exercise : Exercise) (workDir : String) :
    (RunExerciseChecks w exercise workDir).1.length = exercise.spec.checks.length
    ∧ (∀ i : Nat, (RunExerciseChecks w exercise workDir).1[i]? =
      (exercise.spec.checks[i]?).map (runCheck w exercise workDir))
    ∧ ((RunExerciseChecks w exercise workDir).2 = true ↔
      ∀ r ∈ (RunExerciseChecks w exercise workDir).1, r.passed = true)
    ∧ (∀ check ∈ exercise.spec.checks,
      check.ty ≠ "script" → check.ty ≠ "http" → check.ty ≠ "file" →
      ((exercise.spec.environment.ty = "kubernetes" ∧
          (∃ k8s, exercise.spec.environment.kubernetes = some k8s) ∧
          check.ty ≠ "jsonpath" ∧ check.ty ≠ "condition" ∧
          check.ty ≠ "resourceExists" ∧ check.ty ≠ "podLogs" ∧ check.ty ≠ "exec") ∨
        (exercise.spec.environment.ty = "docker" ∧
          check.ty ≠ "docker-image" ∧ check.ty ≠ "docker-container" ∧
          check.ty ≠ "docker-logs" ∧ check.ty ≠ "dockerfile" ∧ check.ty ≠ "exec")) →
      runCheck w exercise workDir check =
        { name := if check.name = "" then check.ty else check.name,
          passed := false,
          message := "unsupported check type: " ++ check.ty }) := by
  refine ⟨?_, ?_, ?_, ?_⟩
  · simp [RunExerciseChecks]
  · intro i
    simp [RunExerciseChecks]
  · simp [RunExerciseChecks, List.all_eq_true]
  · intro check _ h1 h2 h3 hcase
    rcases hcase with ⟨henv, ⟨k8s, hk⟩, hj, hc, hr, hp, he⟩ |
      ⟨henv, hd1, hd2, hd3, hd4, hd5⟩
    · simp [runCheck, h1, h2, h3, henv, hk, hj, hc, hr, hp, he]
    · have hne : ("docker" : String) ≠ "kubernetes" := by decide
      simp [runCheck, h1, h2, h3, henv, hne, hd1, hd2, hd3, hd4, hd5]

/-- A docker-backend exercise declaring a single check of an unrecognized
kind. -/
def exerciseC1 : Exercise :=
  { metadata := { name := "ex1" },
    spec := { environment := { ty := "docker" }, checks := [{ ty := "bogus" }] } }

/-- C1 witness: the unrecognized check kind `bogus` on a docker-backend
exercise yields the failed `unsupported check type` result. -/
theorem runExerciseChecks_C1_witness :
    runCheck quietWorld exerciseC1 "wd" { ty := "bogus" } =
      { name := "bogus", passed := false,
        message := "unsupported check type: " ++ "bogus" } :=
  (runExerciseChecks_C1 quietWorld exerciseC1 "wd").2.2.2 { ty := "bogus" }
    (by decide) (by decide) (by decide) (by decide)
    (Or.inr ⟨rfl, by decide, by decide, by decide, by decide, by decide⟩)

/-- The output-assertion verdict passes exactly when every declared
assertion holds: declared `contains` must occur, declared `notContains`
must not, and a declared `regex` must match. -/
theorem checkExpectOutput_passed_iff (w : World) (output : String)
    (expect : ExpectOutput) (r : Result) (hr : r.passed = false) :
    (checkExpectOutput w output expect r).passed = true ↔
      ((expect.contains = "" ∨ goContains output expect.contains = true) ∧
       (expect.notContains = "" ∨ goContains output expect.notContains = false) ∧
       (expect.regex = "" ∨ w.regexMatch expect.regex output = .ok true)) := by
  unfold checkExpectOutput
  by_cases g1 : expect.contains ≠ "" ∧ ¬goContains output expect.contains
  · rw [if_pos g1]
    refine iff_of_false (by simp [hr]) ?_
    rintro ⟨hA, -, -⟩
    obtain ⟨gc, gn⟩ := g1
    rcases hA with h | h
    · exact gc h
    · exact gn h
  · rw [if_neg g1]
    by_cases g2 : expect.notContains ≠ "" ∧ goContains output expect.notContains
    · rw [if_pos g2]
      refine iff_of_false (by simp [hr]) ?_
      rintro ⟨-, hB, -⟩
      obtain ⟨gc, gn⟩ := g2
      rcases hB with h | h
      · exact gc h
      · exact absurd gn (by simp [h])
    · rw [if_neg g2]
      push_neg at g1 g2
      have hA : expect.contains = "" ∨ goContains output expect.contains = true := by
        by_cases hc : expect.contains = ""
        · exact Or.inl hc
        · exact Or.inr (by simpa using g1 hc)
      have hB : expect.notContains = "" ∨
          goContains output expect.notContains = false := by
        by_cases hn : expect.notContains = ""
        · exact Or.inl hn
        · exact Or.inr (by simpa using g2 hn)
      by_cases g3 : expect.regex = ""
      · rw [if_neg (by simp [g3] : ¬expect.regex ≠ "")]
        exact iff_of_true rfl ⟨hA, hB, Or.inl g3⟩
      · rw [if_pos g3]
        cases hm : w.regexMatch expect.regex output with
        | error e =>
          simp only [hm]
          refine iff_of_false (by simp [hr]) ?_
          rintro ⟨-, -, hC⟩
          rcases hC with h | h
          · exact g3 h
          · simp at h
        | ok matched =>
          cases matched with
          | false =>
            simp only [hm]
            refine iff_of_false (by simp [hr]) ?_
            rintro ⟨-, -, hC⟩
            rcases hC with h | h
            · exact g3 h
            · simp at h
          | true =>
            simp only [hm, Bool.not_true]
            rw [if_neg (by simp)]
            exact iff_of_true rfl ⟨hA, hB, Or.inr (by simp)⟩

/-- C2 (amended): for every script check whose script ran to completion with
exit code `code` and captured output `out`: with a declared expected exit
code the gate fails exactly on a mismatch — in particular a declared code
equal to the script's non-zero exit passes the gate — and a gate failure
reports the mismatch without consulting output assertions; with no declared
expected exit code any non-zero exit fails the check with the runner's
wrapped error text (command, cause and captured output) as its message,
regardless of output assertions; once the gate passes the result is exactly
the output-assertion verdict, and that verdict passes iff every declared
assertion holds. -/
theorem runScriptCheck_C2 (w : World) (check : Check) (workDir : String)
    (code : Int) (out : String)
    (hscript : check.script ≠ "")
    (hexec : w.exec (some workDir) "bash" ["-c", check.script] =
      (if code = 0 then ExecResult.ok out else ExecResult.exitErr code out)) :
    (∀ e, check.expectExitCode = some e → code ≠ e →
      runScriptCheck w check workDir =
        { name := check.name, passed := false,
          message := "expected exit code " ++ toString e ++ ", got " ++
            toString code })
    ∧ (∀ e, check.expectExitCode = some e → code = e →
      runScriptCheck w check workDir =
        (match check.expectOutput with
          | some expect => checkExpectOutput w (goTrim out) expect { name := check.name }
          | none => { name := check.name, passed := true }))
    ∧ (check.expectExitCode = none → code ≠ 0 →
      runScriptCheck w check workDir =
        { name := check.name, passed := false,
          message := runWrapMsg "bash" ["-c", check.script]
            ("exit status " ++ toString code) (goTrim out) })
    ∧ (check.expectExitCode = none → code = 0 →
      runScriptCheck w check workDir =
        (match check.expectOutput with
          | some expect => checkExpectOutput w (goTrim out) expect { name := check.name }
          | none => { name := check.name, passed := true }))
    ∧ (∀ output expect (r : Result), r.passed = false →
      ((checkExpectOutput w output expect r).passed = true ↔
        ((expect.contains = "" ∨ goContains output expect.contains = true) ∧
         (expect.notContains = "" ∨ goContains output expect.notContains = false) ∧
         (expect.regex = "" ∨ w.regexMatch expect.regex output = .ok true)))) := by
  have hrs : runScriptCheck w check workDir =
      execGateAndOutput w check (goTrim out)
        (if code = 0 then none
          else some ⟨runWrapMsg "bash" ["-c", check.script]
            ("exit status " ++ toString code) (goTrim out), some code⟩)
        { name := check.name } := by
    by_cases hc : code = 0
    · simp [runScriptCheck, hscript, runnerRunInDir, hexec, hc, runnerRunWith]
    · simp [runScriptCheck, hscript, runnerRunInDir, hexec, hc, runnerRunWith]
  refine ⟨?_, ?_, ?_, ?_, ?_⟩
  · intro e he hne
    by_cases hc : code = 0
    · subst hc
      simp [hrs, execGateAndOutput, he, hne]
    · simp [hrs, execGateAndOutput, he, hc, hne]
  · intro e he heq
    subst heq
    by_cases hc : code = 0
    · subst hc
      simp [hrs, execGateAndOutput, he]
    · simp [hrs, execGateAndOutput, he, hc]
  · intro he hne
    simp [hrs, execGateAndOutput, he, hne]
  · intro he hc
    subst hc
    simp [hrs, execGateAndOutput, he]
  · intro output expect r hr
    exact checkExpectOutput_passed_iff w output expect r hr

/-- The script check of scenario B with no expected exit code. -/
def scriptCheckC2 : Check := { ty := "script", script := "exit 1" }

/-- C2 counterexample: with no declared expected exit code, a script exiting
1 with empty captured output fails with the runner's wrapped error text as
its message — not the captured output (which is empty here). -/
theorem runScriptCheck_C2_counterexample :
    runScriptCheck exitOneWorld scriptCheckC2 "wd" =
      { name := "", passed := false,
        message := "bash -c exit 1 failed: exit status 1\n" }
    ∧ (runScriptCheck exitOneWorld scriptCheckC2 "wd").message ≠ "" := by
  constructor
  · decide
  · decide

/-- C2 witness: the same script with `expectExitCode: 1` passes. -/
theorem runScriptCheck_C2_witness :
    runScriptCheck exitOneWorld
      { ty := "script", script := "exit 1", expectExitCode := some 1 } "wd" =
      { name := "", passed := true, message := "" } :=
  (runScriptCheck_C2 exitOneWorld
    { ty := "script", script := "exit 1", expectExitCode := some 1 } "wd" 1 ""
    (by decide) (by decide)).2.1 1 rfl rfl

/-- A progress document holding one completed exercise entry. -/
def fileC7 : ProgressFile :=
  { version := 1,
    exercises := [("ex1",
      { status := "completed", startedAt := "s0", completedAt := "t0",
        timeSpent := "5m", hintsUsed := 2, resets := 1, score := 50 })] }

/-- C7 witness: resetting the stored entry of `fileC7` bumps `resets` to 2,
sets it in-progress with the new start stamp, and keeps all other fields. -/
theorem markReset_C7_witness :
    goMapGet (markResetDoc fileC7 "ex1" "t1").exercises "ex1" =
      { status := "in_progress", startedAt := "t1", completedAt := "t0",
        timeSpent := "5m", hintsUsed := 2, resets := 2, score := 50 } :=
  (markReset_C7 fileC7 "ex1" "t1"
    { status := "completed", startedAt := "s0", completedAt := "t0",
      timeSpent := "5m", hintsUsed := 2, resets := 1, score := 50 } (by decide)).1

/-- C8: starting from `hintsUsed ≤ n` (`n` the declared hint count), the
hint command never pushes `hintsUsed` beyond `n`: at `hintsUsed ≥ n` it
reports that no more hints are available and succeeds without touching the
document; below `n`, when the revealed hints load, it advances `hintsUsed`
to `start+1` (or to `n` with reveal-all), never beyond `n`; a failed hint
load leaves the document untouched. -/
theorem hintCmd_C8 (w : World) (baseDir : String) (exercise : Exercise)
    (revealAll : Bool) (file : ProgressFile)
    (hle : (goMapGet file.exercises exercise.metadata.name).hintsUsed ≤
      exercise.spec.hints.length) :
    (goMapGet (hintCmdRun w baseDir exercise revealAll file).1.exercises
        exercise.metadata.name).hintsUsed ≤ exercise.spec.hints.length
    ∧ ((goMapGet file.exercises exercise.metadata.name).hintsUsed ≥
        exercise.spec.hints.length →
      hintCmdRun w baseDir exercise revealAll file =
        (file, .noMore "No more hints available."))
    ∧ ((goMapGet file.exercises exercise.metadata.name).hintsUsed <
        exercise.spec.hints.length →
      ∀ contents, loadHintRange w baseDir exercise.spec.hints
          (goMapGet file.exercises exercise.metadata.name).hintsUsed
          (if revealAll then exercise.spec.hints.length
            else (goMapGet file.exercises exercise.metadata.name).hintsUsed + 1) =
          .ok contents →
      (hintCmdRun w baseDir exercise revealAll file).2 =
        .revealed (if revealAll then exercise.spec.hints.length
          else (goMapGet file.exercises exercise.metadata.name).hintsUsed + 1)
      ∧ (goMapGet (hintCmdRun w baseDir exercise revealAll file).1.exercises
          exercise.metadata.name).hintsUsed =
        (if revealAll then exercise.spec.hints.length
          else (goMapGet file.exercises exercise.metadata.name).hintsUsed + 1))
    ∧ (∀ msg, (hintCmdRun w baseDir exercise revealAll file).2 = .loadErr msg →
      (hintCmdRun w baseDir exercise revealAll file).1 = file) := by
  by_cases hge : (goMapGet file.exercises exercise.metadata.name).hintsUsed ≥
      exercise.spec.hints.length
  · have hrun : hintCmdRun w baseDir exercise revealAll file =
        (file, .noMore "No more hints available.") := by
      simp [hintCmdRun, hge]
    refine ⟨?_, fun _ => hrun, ?_, ?_⟩
    · rw [hrun]
      exact hle
    · intro hlt
      exact absurd hge (by omega)
    · intro msg hmsg
      rw [hrun] at hmsg
      exact absurd hmsg (by simp)
  · have hlt : (goMapGet file.exercises exercise.metadata.name).hintsUsed <
        exercise.spec.hints.length := by omega
    have hend : (if revealAll then exercise.spec.hints.length
        else (goMapGet file.exercises exercise.metadata.name).hintsUsed + 1) ≤
        exercise.spec.hints.length := by
      by_cases hra : revealAll
      · simp [hra]
      · simp [hra]
        omega
    cases hload : loadHintRange w baseDir exercise.spec.hints
        (goMapGet file.exercises exercise.metadata.name).hintsUsed
        (if revealAll then exercise.spec.hints.length
          else (goMapGet file.exercises exercise.metadata.name).hintsUsed + 1) with
    | error e =>
      have hrun : hintCmdRun w baseDir exercise revealAll file = (file, .loadErr e) := by
        simp [hintCmdRun, hge, hload]
      refine ⟨?_, ?_, ?_, ?_⟩
      · rw [hrun]
        exact hle
      · intro h
        exact absurd h hge
      · intro _ contents hok
        exact Except.noConfusion hok
      · intro msg _
        rw [hrun]
    | ok contents =>
      have hrun : hintCmdRun w baseDir exercise revealAll file =
          ({ file with exercises := (goMapSet file.exercises exercise.metadata.name
              ({ goMapGet file.exercises exercise.metadata.name with
                hintsUsed := (if revealAll then exercise.spec.hints.length
                  else (goMapGet file.exercises exercise.metadata.name).hintsUsed + 1) })) },
            .revealed (if revealAll then exercise.spec.hints.length
              else (goMapGet file.exercises exercise.metadata.name).hintsUsed + 1)) := by
        simp [hintCmdRun, hge, hload]
      refine ⟨?_, ?_, ?_, ?_⟩
      · rw [hrun]
        simpa [goMapGet_goMapSet] using hend
      · intro h
        exact absurd h hge
      · intro _ _ _
        rw [hrun]
        simp [goMapGet_goMapSet]
      · intro msg hmsg
        rw [hrun] at hmsg
        exact absurd hmsg (by simp)

/-- An exercise declaring exactly one hint with inline content. -/
def exerciseC8 : Exercise :=
  { metadata := { name := "ex1" },
    spec := { hints := [{ content := "hint one" }] } }

/-- A progress document where the single declared hint is already used. -/
def fileC8 : ProgressFile :=
  { version := 1, exercises := [("ex1", { status := "in_progress", hintsUsed := 1 })] }

/-- C8 witness: at `hintsUsed = n = 1` the hint command reports no more
hints and leaves the document unchanged; from the empty document it reveals
hint 1 and advances `hintsUsed` to exactly 1. -/
theorem hintCmd_C8_witness :
    hintCmdRun quietWorld "base" exerciseC8 false fileC8 =
      (fileC8, .noMore "No more hints available.")
    ∧ (hintCmdRun quietWorld "base" exerciseC8 false
        { version := 1, exercises := [] }).2 = .revealed 1
    ∧ (goMapGet (hintCmdRun quietWorld "base" exerciseC8 false
        { version := 1, exercises := [] }).1.exercises "ex1").hintsUsed = 1 := by
  have h1 := hintCmd_C8 quietWorld "base" exerciseC8 false fileC8 (by decide)
  have h2 := hintCmd_C8 quietWorld "base" exerciseC8 false
    { version := 1, exercises := [] } (by decide)
  have h2r := h2.2.2.1 (by decide) ["hint one"] rfl
  exact ⟨h1.2.1 (by decide), h2r.1, h2r.2⟩

/-- C9 counterexample: the stop command's transition (`markStopped`) moves a
completed entry to `stopped` without any reset, so after completion the
status does not in general remain `completed` until an explicit reset. -/
theorem markStopped_C9_counterexample :
    (goMapGet (markStoppedDoc fileC7 "ex1").exercises "ex1").status = "stopped"
    ∧ ("stopped" : String) ≠ "completed" := by
  constructor
  · decide
  · decide

/-- C9 (amended): a passing check set marks the exercise completed, stamps
`completedAt`, and sets the score to the declared points with 100
substituted for zero; a failing check set leaves the document untouched and
a later passing one keeps the status `completed`; hint reveals never change
the status; an explicit reset sets it back to `in_progress`; however the
stop and start commands also change the status without a reset. -/
theorem markCompleted_C9 :
    (∀ (file : ProgressFile) (name now : String) (points : Int),
      (goMapGet (markCompletedDoc file name now points).exercises name).status =
        "completed"
      ∧ (goMapGet (markCompletedDoc file name now points).exercises name).completedAt =
        now
      ∧ (goMapGet (markCompletedDoc file name now points).exercises name).score =
        defaultPoints points)
    ∧ defaultPoints 0 = 100
    ∧ (∀ (w : World) (exercise : Exercise) (workDir : String) (file : ProgressFile)
        (now : String),
      (RunExerciseChecks w exercise workDir).2 = false →
      (checkCmdRun w exercise workDir file now).1 = file)
    ∧ (∀ (w : World) (exercise : Exercise) (workDir : String) (file : ProgressFile)
        (now : String),
      (RunExerciseChecks w exercise workDir).2 = true →
      (goMapGet (checkCmdRun w exercise workDir file now).1.exercises
        exercise.metadata.name).status = "completed")
    ∧ (∀ (w : World) (baseDir : String) (exercise : Exercise) (revealAll : Bool)
        (file : ProgressFile),
      (goMapGet (hintCmdRun w baseDir exercise revealAll file).1.exercises
        exercise.metadata.name).status =
      (goMapGet file.exercises exercise.metadata.name).status)
    ∧ (∀ (file : ProgressFile) (name now : String),
      (goMapGet (markResetDoc file name now).exercises name).status =
        "in_progress") := by
  refine ⟨?_, rfl, ?_, ?_, ?_, ?_⟩
  · intro file name now points
    refine ⟨?_, ?_, ?_⟩ <;> simp [markCompletedDoc, goMapGet_goMapSet]
  · intro w exercise workDir file now h
    simp [checkCmdRun, h]
  · intro w exercise workDir file now h
    simp [checkCmdRun, h, markCompletedDoc, goMapGet_goMapSet]
  · intro w baseDir exercise revealAll file
    by_cases hge : (goMapGet file.exercises exercise.metadata.name).hintsUsed ≥
        exercise.spec.hints.length
    · simp [hintCmdRun, hge]
    · cases hload : loadHintRange w baseDir exercise.spec.hints
          (goMapGet file.exercises exercise.metadata.name).hintsUsed
          (if revealAll then exercise.spec.hints.length
            else (goMapGet file.exercises exercise.metadata.name).hintsUsed + 1) with
      | error e => simp [hintCmdRun, hge, hload]
      | ok contents => simp [hintCmdRun, hge, hload, goMapGet_goMapSet]
  · intro file name now
    simp [markResetDoc, goMapGet_goMapSet]

/-- A progress document holding one completed entry for `ex1`. -/
def fileC9 : ProgressFile :=
  { version := 1,
    exercises := [("ex1", { status := "completed", completedAt := "t0", score := 100 })] }

/-- C9 witness: completing with declared points 0 records score 100, and a
failing check set (the unrecognized-kind check of `exerciseC1`) leaves the
document untouched. -/
theorem markCompleted_C9_witness :
    (goMapGet (markCompletedDoc fileC9 "ex1" "t2" 0).exercises "ex1").score = 100
    ∧ (checkCmdRun quietWorld exerciseC1 "wd" fileC9 "t2").1 = fileC9 := by
  constructor
  · exact (markCompleted_C9.1 fileC9 "ex1" "t2" 0).2.2.trans markCompleted_C9.2.1
  · exact markCompleted_C9.2.2.1 quietWorld exerciseC1 "wd" fileC9 "t2" (by decide)

/-- C10: an exercise declaring no checks evaluates to the empty result list
with the all-passed boolean true, independently of the world (the
environment is never consulted), and the check command therefore marks it
completed immediately. -/
theorem checkCmdEmpty_C10 (w w' : World) (exercise : Exercise)
    (workDir workDir' : String) (file : ProgressFile) (now : String)
    (h : exercise.spec.checks = []) :
    RunExerciseChecks w exercise workDir = ([], true)
    ∧ RunExerciseChecks w exercise workDir = RunExerciseChecks w' exercise workDir'
    ∧ (checkCmdRun w exercise workDir file now).2 = ([], true)
    ∧ (goMapGet (checkCmdRun w exercise workDir file now).1.exercises
        exercise.metadata.name).status = "completed" := by
  have h1 : ∀ (w0 : World) (wd : String), RunExerciseChecks w0 exercise wd = ([], true) := by
    intro w0 wd
    simp [RunExerciseChecks, h]
  refine ⟨h1 w workDir, (h1 w workDir).trans (h1 w' workDir').symm, ?_, ?_⟩
  · simp [checkCmdRun, RunExerciseChecks, h]
  · simp [checkCmdRun, RunExerciseChecks, h, markCompletedDoc, goMapGet_goMapSet]

/-- An exercise declaring no checks. -/
def exerciseC10 : Exercise := { metadata := { name := "empty-ex" }, spec := {} }

/-- C10 witness: the empty-check exercise evaluates to `([], true)` in two
different worlds and the check command marks it completed. -/
theorem checkCmdEmpty_C10_witness :
    RunExerciseChecks quietWorld exerciseC10 "wd" = ([], true)
    ∧ RunExerciseChecks quietWorld exerciseC10 "wd" =
      RunExerciseChecks exitOneWorld exerciseC10 "other"
    ∧ (goMapGet (checkCmdRun quietWorld exerciseC10 "wd"
        { version := 1, exercises := [] } "t").1.exercises "empty-ex").status =
      "completed" := by
  have h := checkCmdEmpty_C10 quietWorld exitOneWorld exerciseC10 "wd" "other"
    { version := 1, exercises := [] } "t" rfl
  exact ⟨h.1, h.2.1, h.2.2.2⟩

end Gymctl
